import Mathlib

/-!
Verification of the `/convert` request handler of `app.py` in
pjd199/fileconverter.

The handler `convert_pdf` validates a multipart upload, rasterizes the
uploaded PDF via an external library (`pdf2image.convert_from_bytes`),
encodes each resulting page image as a JPEG via an external imaging
library (PIL `Image.save`), and returns either a single JPEG or an
in-memory ZIP archive of JPEGs.

The two external collaborators (rasterizer and JPEG encoder) are
parameters of the embedding: fallible functions returning `Except`,
where `Except.error e` models a raised Python exception with text `e`.
Every externally visible side effect of the handler (reading the upload
body, invoking the rasterizer, invoking the encoder, printing a
diagnostic line) is recorded in an event trace, so that frame
properties ("the rasterizer is never invoked on a 400") are statable.
-/

namespace FileConverter

/-- Raw byte sequences (file contents, encoded images). -/
abbrev Bytes := List Nat

/-- An uploaded file as the handler sees it: the declared filename and
the raw content obtained by `pdf_file.read()`. -/
structure UploadedFile where
  filename : String
  content : Bytes
deriving DecidableEq, Repr

/-- The part of the request the handler inspects: `request.files['pdfFile']`,
`none` when the multipart form has no `pdfFile` field. -/
structure Request where
  files : Option UploadedFile
deriving DecidableEq, Repr

/-- ZIP compression method; `zipfile.ZIP_DEFLATED` is `deflated`. -/
inductive Compression where
  | stored
  | deflated
deriving DecidableEq, Repr

/-- Payload of a `send_file` response: either raw bytes (the single-JPEG
branch) or a ZIP archive assembled in memory, kept structured as its
list of `(entry name, entry data)` pairs plus the compression method
passed to `zipfile.ZipFile`. -/
inductive FileData where
  | raw (b : Bytes)
  | zip (entries : List (String × Bytes)) (compression : Compression)
deriving DecidableEq, Repr

/-- The handler's HTTP response: either a plain-text body with an explicit
status code (the `return "...", code` statements), or a `send_file`
response carrying a mimetype and a download name (status 200). -/
inductive Response where
  | text (body : String) (status : Nat)
  | sendFile (data : FileData) (mimetype : String) (downloadName : String)
deriving DecidableEq, Repr

/-- HTTP status of a response; Flask's `send_file` responds 200. -/
def Response.status : Response → Nat
  | .text _ s => s
  | .sendFile _ _ _ => 200

/-- Externally visible effects of one request, in order of occurrence:
`readFile` is `pdf_file.read()`, `rasterize` is the
`convert_from_bytes(pdf_bytes, dpi=150)` call, `encode` is a PIL
`img.save(..., format='JPEG', quality=85)` call, and `log` is the
`print(...)` diagnostic line in the exception handler. -/
inductive Event (Img : Type) where
  | readFile (content : Bytes)
  | rasterize (content : Bytes) (dpi : Nat)
  | encode (img : Img) (quality : Nat)
  | log (msg : String)
deriving DecidableEq, Repr

/-- The validation test `pdf_file.filename.lower().endswith('.pdf')` of
line 39: lowercase the filename character-wise, then compare its tail
against the four characters `.pdf`.  Modelled over the character list
of the string so that it is kernel-reducible. -/
def lowerEndsWithPdf (s : String) : Bool :=
  let l := s.data.map Char.toLower
  let t := (".pdf").data
  (l.drop (l.length - t.length)) == t

/-- The multi-page loop `for i, img in enumerate(images)`: encode each
page at quality 85, stopping at the first exception (which aborts the
whole request).  Returns the encoded pages (or the exception) together
with the encode events that occurred. -/
def encodeAll {Img : Type} (encoder : Img → Nat → Except String Bytes) :
    List Img → Except String (List Bytes) × List (Event Img)
  | [] => (Except.ok [], [])
  | img :: rest =>
    match encoder img 85 with
    | Except.error e => (Except.error e, [Event.encode img 85])
    | Except.ok b =>
      match encodeAll encoder rest with
      | (Except.error e, evs) => (Except.error e, Event.encode img 85 :: evs)
      | (Except.ok bs, evs) => (Except.ok (b :: bs), Event.encode img 85 :: evs)

/-- Entry names written by `zf.writestr(f'page_{i+1}.jpg', ...)`. -/
def entryName (i : Nat) : String :=
  "page_" ++ toString (i + 1) ++ ".jpg"

/-- The ZIP entries assembled from the encoded pages, in loop order. -/
def zipEntries (blobs : List Bytes) : List (String × Bytes) :=
  blobs.enum.map fun p => (entryName p.1, p.2)

/-- Body of the `try:` block of `convert_pdf` (lines 40-66 of `app.py`),
given the bytes already read from the upload.  `Except.error e` is an
exception escaping the block; `Except.ok` carries the `return`ed
response.  The second component is the event trace of the block. -/
def tryBody {Img : Type} (rasterizer : Bytes → Nat → Except String (List Img))
    (encoder : Img → Nat → Except String Bytes) (content : Bytes) :
    Except String Response × List (Event Img) :=
  let readEv : Event Img := Event.readFile content
  let rastEv : Event Img := Event.rasterize content 150
  match rasterizer content 150 with
  | Except.error e => (Except.error e, [readEv, rastEv])
  | Except.ok images =>
    match images with
    | [] =>
      -- `if not images: return "Could not convert ...", 500`
      (Except.ok (Response.text "Could not convert PDF to images. Ensure PDF is valid." 500),
       [readEv, rastEv])
    | [img] =>
      -- `if len(images) == 1:` single-page branch
      match encoder img 85 with
      | Except.error e => (Except.error e, [readEv, rastEv, Event.encode img 85])
      | Except.ok b =>
        (Except.ok (Response.sendFile (FileData.raw b) "image/jpeg" "converted_page_1.jpg"),
         [readEv, rastEv, Event.encode img 85])
    | a :: b :: t =>
      -- `else:` multi-page branch: ZipFile(..., 'a', zipfile.ZIP_DEFLATED, False)
      match encodeAll encoder (a :: b :: t) with
      | (Except.error e, evs) => (Except.error e, readEv :: rastEv :: evs)
      | (Except.ok blobs, evs) =>
        (Except.ok (Response.sendFile (FileData.zip (zipEntries blobs) Compression.deflated)
            "application/zip" "converted_pages.zip"),
         readEv :: rastEv :: evs)

/-- The `/convert` POST handler `convert_pdf` (lines 26-73 of `app.py`),
returning the response together with the trace of external effects. -/
def convert_pdf {Img : Type} (rasterizer : Bytes → Nat → Except String (List Img))
    (encoder : Img → Nat → Except String Bytes) (req : Request) :
    Response × List (Event Img) :=
  match req.files with
  | none =>
    -- `if 'pdfFile' not in request.files:`
    (Response.text "No PDF file part in the request" 400, [])
  | some pdf_file =>
    if pdf_file.filename = "" then
      -- `if pdf_file.filename == '':`
      (Response.text "No selected file" 400, [])
    else if lowerEndsWithPdf pdf_file.filename then
      -- `if pdf_file and pdf_file.filename.lower().endswith('.pdf'):`
      -- (the truthiness of `pdf_file` is `bool(pdf_file.filename)`, already
      -- known true here since the filename is nonempty)
      match tryBody rasterizer encoder pdf_file.content with
      | (Except.ok resp, evs) => (resp, evs)
      | (Except.error e, evs) =>
        -- `except Exception as e:` — log and answer 500
        (Response.text ("An error occurred during conversion: " ++ e) 500,
         evs ++ [Event.log ("Error during PDF conversion: " ++ e)])
    else
      (Response.text "Invalid file type. Please upload a PDF." 400, [])

/-! ### Concrete collaborators

Closed instances of the abstract rasterizer and encoder, used to
evaluate the handler on concrete requests. -/

/-- A rasterizer producing two page images. -/
def rastTwoPages : Bytes → Nat → Except String (List Nat) := fun _ _ => Except.ok [3, 4]

/-- A rasterizer producing one page image. -/
def rastOnePage : Bytes → Nat → Except String (List Nat) := fun _ _ => Except.ok [3]

/-- A rasterizer reporting an empty document. -/
def rastZeroPages : Bytes → Nat → Except String (List Nat) := fun _ _ => Except.ok []

/-- A rasterizer raising an exception. -/
def rastRaises : Bytes → Nat → Except String (List Nat) :=
  fun _ _ => Except.error "poppler not installed"

/-- An encoder that always succeeds, tagging output with image and quality. -/
def encOk : Nat → Nat → Except String Bytes := fun img q => Except.ok [img, q]

/-! ### Helper lemmas -/

/-- An empty filename never passes the extension check. -/
theorem empty_filename_not_pdf : lowerEndsWithPdf "" = false := by decide

/-- A successful `encodeAll` run yields one blob per page, each the
quality-85 encoding of the corresponding page, in order. -/
theorem encodeAll_ok {Img : Type} (encoder : Img → Nat → Except String Bytes) :
    ∀ (images : List Img) (blobs : List Bytes),
      (encodeAll encoder images).1 = Except.ok blobs →
      blobs.length = images.length ∧
      ∀ i (hi : i < images.length) (hb : i < blobs.length),
        encoder images[i] 85 = Except.ok blobs[i]
  | [], blobs, h => by
    simp only [encodeAll] at h
    cases h
    simp
  | img :: rest, blobs, h => by
    simp only [encodeAll] at h
    cases henc : encoder img 85 with
    | error e => rw [henc] at h; simp at h
    | ok b =>
      rw [henc] at h
      cases hrec : encodeAll encoder rest with
      | mk r evs =>
        rw [hrec] at h
        cases r with
        | error e => simp at h
        | ok bs =>
          simp only at h
          cases h
          obtain ⟨hlen, hget⟩ := encodeAll_ok encoder rest bs (by rw [hrec])
          refine ⟨by simp [hlen], ?_⟩
          intro i hi hb
          cases i with
          | zero => simpa using henc
          | succ j =>
            simpa using hget j (by simpa using hi) (by simpa using hb)

/-- Every event emitted by the encoding loop is a quality-85 encode. -/
theorem encodeAll_events_encode85 {Img : Type} (encoder : Img → Nat → Except String Bytes) :
    ∀ (images : List Img) (ev : Event Img), ev ∈ (encodeAll encoder images).2 →
      ∃ img, ev = Event.encode img 85
  | [], ev, h => by simp [encodeAll] at h
  | img :: rest, ev, h => by
    simp only [encodeAll] at h
    cases henc : encoder img 85 with
    | error e =>
      rw [henc] at h
      simp only [List.mem_singleton] at h
      exact ⟨img, h⟩
    | ok b =>
      rw [henc] at h
      cases hrec : encodeAll encoder rest with
      | mk r evs =>
        rw [hrec] at h
        cases r with
        | error e =>
          simp only [List.mem_cons] at h
          rcases h with h | h
          · exact ⟨img, h⟩
          · exact encodeAll_events_encode85 encoder rest ev (by rw [hrec]; exact h)
        | ok bs =>
          simp only [List.mem_cons] at h
          rcases h with h | h
          · exact ⟨img, h⟩
          · exact encodeAll_events_encode85 encoder rest ev (by rw [hrec]; exact h)

/-- Length of the assembled ZIP entry list. -/
theorem zipEntries_length (blobs : List Bytes) : (zipEntries blobs).length = blobs.length := by
  simp [zipEntries]

/-- The `i`-th ZIP entry is named `page_{i+1}.jpg` and holds the `i`-th blob. -/
theorem zipEntries_get (blobs : List Bytes) (i : Nat) (h : i < (zipEntries blobs).length) :
    (zipEntries blobs).get ⟨i, h⟩ =
      (entryName i, blobs.get ⟨i, by simpa [zipEntries_length] using h⟩) := by
  simp [zipEntries]

/-- A filename passing the extension check is nonempty. -/
theorem lowerEndsWithPdf_ne_empty {fn : String} (h : lowerEndsWithPdf fn = true) : fn ≠ "" := by
  intro he
  subst he
  rw [empty_filename_not_pdf] at h
  exact Bool.noConfusion h

/-- The `try:` block always records the rasterizer invocation (with the
uploaded bytes and 150 DPI) in its trace. -/
theorem tryBody_rasterize_mem {Img : Type} (rasterizer : Bytes → Nat → Except String (List Img))
    (encoder : Img → Nat → Except String Bytes) (content : Bytes) :
    Event.rasterize content 150 ∈ (tryBody rasterizer encoder content).2 := by
  simp only [tryBody]
  repeat' split
  all_goals simp

/-- Every event in the `try:` block's trace is the read of the upload,
the fixed-parameter rasterizer call, or a quality-85 encode. -/
theorem tryBody_events {Img : Type} (rasterizer : Bytes → Nat → Except String (List Img))
    (encoder : Img → Nat → Except String Bytes) (content : Bytes) :
    ∀ ev ∈ (tryBody rasterizer encoder content).2,
      ev = Event.readFile content ∨ ev = Event.rasterize content 150 ∨
        ∃ img, ev = Event.encode img 85 := by
  intro ev hev
  simp only [tryBody] at hev
  repeat' split at hev
  all_goals simp only [List.mem_cons, List.not_mem_nil, or_false] at hev
  · tauto
  · tauto
  · rcases hev with h | h | h
    · exact Or.inl h
    · exact Or.inr (Or.inl h)
    · exact Or.inr (Or.inr ⟨_, h⟩)
  · rcases hev with h | h | h
    · exact Or.inl h
    · exact Or.inr (Or.inl h)
    · exact Or.inr (Or.inr ⟨_, h⟩)
  · rename_i heq
    rcases hev with h | h | h
    · exact Or.inl h
    · exact Or.inr (Or.inl h)
    · exact Or.inr (Or.inr (encodeAll_events_encode85 encoder _ ev (by rw [heq]; exact h)))
  · rename_i heq
    rcases hev with h | h | h
    · exact Or.inl h
    · exact Or.inr (Or.inl h)
    · exact Or.inr (Or.inr (encodeAll_events_encode85 encoder _ ev (by rw [heq]; exact h)))

/-- Any response returned (not raised) by the `try:` block has status
500 (the zero-page error) or 200 (a `send_file`). -/
theorem tryBody_ok_status {Img : Type} (rasterizer : Bytes → Nat → Except String (List Img))
    (encoder : Img → Nat → Except String Bytes) (content : Bytes) (resp : Response)
    (h : (tryBody rasterizer encoder content).1 = Except.ok resp) :
    resp.status = 500 ∨ resp.status = 200 := by
  simp only [tryBody] at h
  repeat' split at h
  all_goals (cases h <;> simp [Response.status])

/-- Unfolding of `convert_pdf` once validation has passed. -/
theorem convert_pdf_valid_eq {Img : Type} (rasterizer : Bytes → Nat → Except String (List Img))
    (encoder : Img → Nat → Except String Bytes) (fn : String) (content : Bytes)
    (hext : lowerEndsWithPdf fn = true) :
    convert_pdf rasterizer encoder ⟨some ⟨fn, content⟩⟩ =
      (match tryBody rasterizer encoder content with
       | (Except.ok resp, evs) => (resp, evs)
       | (Except.error e, evs) =>
         (Response.text ("An error occurred during conversion: " ++ e) 500,
          evs ++ [Event.log ("Error during PDF conversion: " ++ e)])) := by
  simp [convert_pdf, lowerEndsWithPdf_ne_empty hext, hext]

/-- `convert_pdf` passes a returned response through unchanged. -/
theorem convert_pdf_valid_ok {Img : Type} (rasterizer : Bytes → Nat → Except String (List Img))
    (encoder : Img → Nat → Except String Bytes) (fn : String) (content : Bytes)
    (resp : Response) (evs : List (Event Img))
    (hext : lowerEndsWithPdf fn = true)
    (h : tryBody rasterizer encoder content = (Except.ok resp, evs)) :
    convert_pdf rasterizer encoder ⟨some ⟨fn, content⟩⟩ = (resp, evs) := by
  rw [convert_pdf_valid_eq rasterizer encoder fn content hext, h]

/-- `convert_pdf` turns an exception from the `try:` block into a logged
500 response carrying the exception text. -/
theorem convert_pdf_valid_error {Img : Type} (rasterizer : Bytes → Nat → Except String (List Img))
    (encoder : Img → Nat → Except String Bytes) (fn : String) (content : Bytes)
    (e : String) (evs : List (Event Img))
    (hext : lowerEndsWithPdf fn = true)
    (h : tryBody rasterizer encoder content = (Except.error e, evs)) :
    convert_pdf rasterizer encoder ⟨some ⟨fn, content⟩⟩ =
      (Response.text ("An error occurred during conversion: " ++ e) 500,
       evs ++ [Event.log ("Error during PDF conversion: " ++ e)]) := by
  rw [convert_pdf_valid_eq rasterizer encoder fn content hext, h]

/-- Once validation passes, the response status is never 400. -/
theorem convert_pdf_valid_status_ne_400 {Img : Type}
    (rasterizer : Bytes → Nat → Except String (List Img))
    (encoder : Img → Nat → Except String Bytes) (fn : String) (content : Bytes)
    (hext : lowerEndsWithPdf fn = true) :
    (convert_pdf rasterizer encoder ⟨some ⟨fn, content⟩⟩).1.status ≠ 400 := by
  cases htb : tryBody rasterizer encoder content with
  | mk r evs =>
    cases r with
    | error e =>
      rw [convert_pdf_valid_error rasterizer encoder fn content e evs hext htb]
      simp [Response.status]
    | ok resp =>
      rw [convert_pdf_valid_ok rasterizer encoder fn content resp evs hext htb]
      have := tryBody_ok_status rasterizer encoder content resp (by rw [htb])
      rcases this with h | h <;> simp [h]

/-! ### Claim theorems -/

/-- Claim C1: for every valid upload whose rasterization yields N > 1 page
images (and whose page encodings succeed), `convert_pdf` returns status
200 with MIME type `application/zip` and attachment `converted_pages.zip`,
and the ZIP archive contains exactly N entries named `page_1.jpg` through
`page_N.jpg`, contiguously 1-indexed, each holding the corresponding page's
encoding in page order, written with deflate compression. -/
theorem multi_page_returns_deflate_zip {Img : Type}
    (rasterizer : Bytes → Nat → Except String (List Img))
    (encoder : Img → Nat → Except String Bytes)
    (fn : String) (content : Bytes) (images : List Img) (blobs : List Bytes)
    (hext : lowerEndsWithPdf fn = true)
    (hrast : rasterizer content 150 = Except.ok images)
    (hmulti : 1 < images.length)
    (henc : (encodeAll encoder images).1 = Except.ok blobs) :
    ∃ entries : List (String × Bytes),
      (convert_pdf rasterizer encoder ⟨some ⟨fn, content⟩⟩).1 =
        Response.sendFile (FileData.zip entries Compression.deflated)
          "application/zip" "converted_pages.zip" ∧
      (convert_pdf rasterizer encoder ⟨some ⟨fn, content⟩⟩).1.status = 200 ∧
      entries.length = images.length ∧
      (∀ i (h : i < entries.length), (entries.get ⟨i, h⟩).1 = entryName i) ∧
      (∀ i (hi : i < images.length) (he : i < entries.length),
        encoder (images.get ⟨i, hi⟩) 85 = Except.ok (entries.get ⟨i, he⟩).2) := by
  rcases images with _ | ⟨a, _ | ⟨b, t⟩⟩
  · simp at hmulti
  · simp at hmulti
  · cases hpair : encodeAll encoder (a :: b :: t) with
    | mk r evs =>
      have h1 : (encodeAll encoder (a :: b :: t)).1 = r := by rw [hpair]
      rw [h1] at henc
      subst henc
      have htb : tryBody rasterizer encoder content =
          (Except.ok (Response.sendFile (FileData.zip (zipEntries blobs) Compression.deflated)
            "application/zip" "converted_pages.zip"),
           Event.readFile content :: Event.rasterize content 150 :: evs) := by
        simp only [tryBody, hrast, hpair]
      have hcv := convert_pdf_valid_ok rasterizer encoder fn content _ _ hext htb
      obtain ⟨hlen, hget⟩ := encodeAll_ok encoder (a :: b :: t) blobs (by rw [hpair])
      refine ⟨zipEntries blobs, ?_, ?_, ?_, ?_, ?_⟩
      · rw [hcv]
      · simp [hcv, Response.status]
      · rw [zipEntries_length, hlen]
      · intro i h
        rw [zipEntries_get]
      · intro i hi he
        have hb : i < blobs.length := zipEntries_length blobs ▸ he
        rw [zipEntries_get]
        simpa using hget i hi hb

/-- Claim C2: for every valid upload whose rasterization yields exactly one
page image, `convert_pdf` encodes it as a JPEG at quality 85 and returns
status 200 with MIME type `image/jpeg` and attachment
`converted_page_1.jpg`. -/
theorem single_page_returns_jpeg {Img : Type}
    (rasterizer : Bytes → Nat → Except String (List Img))
    (encoder : Img → Nat → Except String Bytes)
    (fn : String) (content : Bytes) (img : Img) (b : Bytes)
    (hext : lowerEndsWithPdf fn = true)
    (hrast : rasterizer content 150 = Except.ok [img])
    (henc : encoder img 85 = Except.ok b) :
    convert_pdf rasterizer encoder ⟨some ⟨fn, content⟩⟩ =
      (Response.sendFile (FileData.raw b) "image/jpeg" "converted_page_1.jpg",
       [Event.readFile content, Event.rasterize content 150, Event.encode img 85]) ∧
    (convert_pdf rasterizer encoder ⟨some ⟨fn, content⟩⟩).1.status = 200 := by
  have htb : tryBody rasterizer encoder content =
      (Except.ok (Response.sendFile (FileData.raw b) "image/jpeg" "converted_page_1.jpg"),
       [Event.readFile content, Event.rasterize content 150, Event.encode img 85]) := by
    simp only [tryBody, hrast, henc]
  have hcv := convert_pdf_valid_ok rasterizer encoder fn content _ _ hext htb
  exact ⟨hcv, by simp [hcv, Response.status]⟩

/-- Claim C3: a non-empty filename whose extension is not `.pdf`
(case-insensitively) is rejected with a 400 response and body
"Invalid file type. Please upload a PDF."; conversely a filename ending
case-insensitively in `.pdf` passes this check, so the response is not a
400 and the rasterizer is actually invoked. -/
theorem extension_check_rejects_non_pdf {Img : Type}
    (rasterizer : Bytes → Nat → Except String (List Img))
    (encoder : Img → Nat → Except String Bytes)
    (fn : String) (content : Bytes)
    (hne : fn ≠ "") :
    (lowerEndsWithPdf fn = false →
      convert_pdf rasterizer encoder ⟨some ⟨fn, content⟩⟩ =
        (Response.text "Invalid file type. Please upload a PDF." 400,
         ([] : List (Event Img)))) ∧
    (lowerEndsWithPdf fn = true →
      (convert_pdf rasterizer encoder ⟨some ⟨fn, content⟩⟩).1.status ≠ 400 ∧
      Event.rasterize content 150 ∈ (convert_pdf rasterizer encoder ⟨some ⟨fn, content⟩⟩).2) := by
  constructor
  · intro hf
    simp [convert_pdf, hne, hf]
  · intro ht
    refine ⟨convert_pdf_valid_status_ne_400 rasterizer encoder fn content ht, ?_⟩
    cases htb : tryBody rasterizer encoder content with
    | mk r evs =>
      have hmem := tryBody_rasterize_mem rasterizer encoder content
      rw [htb] at hmem
      cases r with
      | ok resp =>
        rw [convert_pdf_valid_ok rasterizer encoder fn content resp evs ht htb]
        exact hmem
      | error e =>
        rw [convert_pdf_valid_error rasterizer encoder fn content e evs ht htb]
        simp only [List.mem_append]
        exact Or.inl hmem

/-- Claim C4: for every upload passing validation for which the rasterizer
returns zero page images, `convert_pdf` returns status 500 with a body
stating the PDF could not be converted. -/
theorem zero_pages_returns_500 {Img : Type}
    (rasterizer : Bytes → Nat → Except String (List Img))
    (encoder : Img → Nat → Except String Bytes)
    (fn : String) (content : Bytes)
    (hext : lowerEndsWithPdf fn = true)
    (hrast : rasterizer content 150 = Except.ok ([] : List Img)) :
    convert_pdf rasterizer encoder ⟨some ⟨fn, content⟩⟩ =
      (Response.text "Could not convert PDF to images. Ensure PDF is valid." 500,
       [Event.readFile content, Event.rasterize content 150]) :=
  convert_pdf_valid_ok rasterizer encoder fn content _ _ hext (by simp only [tryBody, hrast])

/-- Claim C5: for every upload passing validation, if an exception is
raised during rasterization or encoding (the `try:` block fails with
text `e`), `convert_pdf` catches it, emits the diagnostic log line, and
returns status 500 with the exception's text in the response body; the
request terminates with that response. -/
theorem exception_returns_logged_500 {Img : Type}
    (rasterizer : Bytes → Nat → Except String (List Img))
    (encoder : Img → Nat → Except String Bytes)
    (fn : String) (content : Bytes) (e : String)
    (hext : lowerEndsWithPdf fn = true)
    (hexc : (tryBody rasterizer encoder content).1 = Except.error e) :
    (convert_pdf rasterizer encoder ⟨some ⟨fn, content⟩⟩).1 =
      Response.text ("An error occurred during conversion: " ++ e) 500 ∧
    (convert_pdf rasterizer encoder ⟨some ⟨fn, content⟩⟩).1.status = 500 ∧
    Event.log ("Error during PDF conversion: " ++ e) ∈
      (convert_pdf rasterizer encoder ⟨some ⟨fn, content⟩⟩).2 := by
  cases htb : tryBody rasterizer encoder content with
  | mk r evs =>
    have h1 : (tryBody rasterizer encoder content).1 = r := by rw [htb]
    rw [h1] at hexc
    subst hexc
    have hcv := convert_pdf_valid_error rasterizer encoder fn content e evs hext htb
    rw [hcv]
    refine ⟨rfl, rfl, ?_⟩
    simp

/-- Claim C6: a POST whose multipart form lacks the `pdfFile` field is
answered 400 with body "No PDF file part in the request". -/
theorem missing_field_returns_400 {Img : Type}
    (rasterizer : Bytes → Nat → Except String (List Img))
    (encoder : Img → Nat → Except String Bytes) :
    convert_pdf rasterizer encoder ⟨none⟩ =
      (Response.text "No PDF file part in the request" 400, ([] : List (Event Img))) := rfl

/-- Claim C7: an upload whose `pdfFile` field is present but declares the
empty filename is answered 400 with body "No selected file". -/
theorem empty_filename_returns_400 {Img : Type}
    (rasterizer : Bytes → Nat → Except String (List Img))
    (encoder : Img → Nat → Except String Bytes) (content : Bytes) :
    convert_pdf rasterizer encoder ⟨some ⟨"", content⟩⟩ =
      (Response.text "No selected file" 400, ([] : List (Event Img))) := by
  simp [convert_pdf]

/-- Claim C8: for every upload that passes validation, the rasterizer is
invoked (exactly on the uploaded raw bytes at the fixed 150 DPI: every
rasterize event in the trace carries those arguments, and one occurs),
and every encode event in the trace uses quality 85 — in both the
single-page and multi-page branches, independent of the request. -/
theorem conversion_parameters_fixed {Img : Type}
    (rasterizer : Bytes → Nat → Except String (List Img))
    (encoder : Img → Nat → Except String Bytes)
    (fn : String) (content : Bytes)
    (hext : lowerEndsWithPdf fn = true) :
    (∀ b d, Event.rasterize b d ∈ (convert_pdf rasterizer encoder ⟨some ⟨fn, content⟩⟩).2 →
      b = content ∧ d = 150) ∧
    Event.rasterize content 150 ∈ (convert_pdf rasterizer encoder ⟨some ⟨fn, content⟩⟩).2 ∧
    (∀ img q, Event.encode img q ∈ (convert_pdf rasterizer encoder ⟨some ⟨fn, content⟩⟩).2 →
      q = 85) := by
  have hchar : ∀ ev ∈ (convert_pdf rasterizer encoder ⟨some ⟨fn, content⟩⟩).2,
      ev = Event.readFile content ∨ ev = Event.rasterize content 150 ∨
      (∃ img, ev = Event.encode img 85) ∨ (∃ m, ev = Event.log m) := by
    intro ev hev
    cases htb : tryBody rasterizer encoder content with
    | mk r evs =>
      cases r with
      | ok resp =>
        rw [convert_pdf_valid_ok rasterizer encoder fn content resp evs hext htb] at hev
        have := tryBody_events rasterizer encoder content ev (by rw [htb]; exact hev)
        tauto
      | error e =>
        rw [convert_pdf_valid_error rasterizer encoder fn content e evs hext htb] at hev
        simp only [List.mem_append, List.mem_singleton] at hev
        rcases hev with hev | hev
        · have := tryBody_events rasterizer encoder content ev (by rw [htb]; exact hev)
          tauto
        · exact Or.inr (Or.inr (Or.inr ⟨_, hev⟩))
  refine ⟨?_, ?_, ?_⟩
  · intro b d hmem
    rcases hchar _ hmem with h | h | ⟨img, h⟩ | ⟨m, h⟩
    · exact absurd h (by simp)
    · injection h with hb hd
      exact ⟨hb, hd⟩
    · exact absurd h (by simp)
    · exact absurd h (by simp)
  · cases htb : tryBody rasterizer encoder content with
    | mk r evs =>
      have hmem := tryBody_rasterize_mem rasterizer encoder content
      rw [htb] at hmem
      cases r with
      | ok resp =>
        rw [convert_pdf_valid_ok rasterizer encoder fn content resp evs hext htb]
        exact hmem
      | error e =>
        rw [convert_pdf_valid_error rasterizer encoder fn content e evs hext htb]
        simp only [List.mem_append]
        exact Or.inl hmem
  · intro img q hmem
    rcases hchar _ hmem with h | h | ⟨img2, h⟩ | ⟨m, h⟩
    · exact absurd h (by simp)
    · exact absurd h (by simp)
    · injection h with himg hq
    · exact absurd h (by simp)

/-- Claim C9: validation errors have a fixed precedence — the missing-field
check first, then the empty-filename check, then the extension check; in
particular an empty filename (which also fails the extension check, as
stated) is reported as "No selected file", and only a nonempty filename
failing the extension test yields the invalid-type message. -/
theorem validation_precedence {Img : Type}
    (rasterizer : Bytes → Nat → Except String (List Img))
    (encoder : Img → Nat → Except String Bytes) :
    (∀ req : Request, req.files = none →
      convert_pdf rasterizer encoder req =
        (Response.text "No PDF file part in the request" 400, ([] : List (Event Img)))) ∧
    (∀ (fn : String) (content : Bytes), fn = "" →
      lowerEndsWithPdf fn = false ∧
      convert_pdf rasterizer encoder ⟨some ⟨fn, content⟩⟩ =
        (Response.text "No selected file" 400, ([] : List (Event Img)))) ∧
    (∀ (fn : String) (content : Bytes), fn ≠ "" → lowerEndsWithPdf fn = false →
      convert_pdf rasterizer encoder ⟨some ⟨fn, content⟩⟩ =
        (Response.text "Invalid file type. Please upload a PDF." 400,
         ([] : List (Event Img)))) := by
  refine ⟨?_, ?_, ?_⟩
  · intro req h
    obtain ⟨files⟩ := req
    cases files with
    | none => rfl
    | some f => exact Option.noConfusion h
  · intro fn content h
    subst h
    exact ⟨empty_filename_not_pdf, by simp [convert_pdf]⟩
  · intro fn content hne hf
    simp [convert_pdf, hne, hf]

/-- Claim C10: every request rejected with a 400 validation error has an
empty effect trace — the upload is never read, the rasterizer is never
invoked, and no encoding happens. -/
theorem validation_failure_no_effects {Img : Type}
    (rasterizer : Bytes → Nat → Except String (List Img))
    (encoder : Img → Nat → Except String Bytes) (req : Request)
    (h400 : (convert_pdf rasterizer encoder req).1.status = 400) :
    (convert_pdf rasterizer encoder req).2 = [] ∧
    (∀ b d, Event.rasterize b d ∉ (convert_pdf rasterizer encoder req).2) ∧
    (∀ b, Event.readFile b ∉ (convert_pdf rasterizer encoder req).2) ∧
    (∀ img q, Event.encode img q ∉ (convert_pdf rasterizer encoder req).2) := by
  have hnil : (convert_pdf rasterizer encoder req).2 = [] := by
    obtain ⟨files⟩ := req
    cases files with
    | none => rfl
    | some f =>
      obtain ⟨fn, content⟩ := f
      by_cases hne : fn = ""
      · subst hne
        simp [convert_pdf]
      · by_cases hext : lowerEndsWithPdf fn = true
        · exact absurd h400 (convert_pdf_valid_status_ne_400 rasterizer encoder fn content hext)
        · have hf : lowerEndsWithPdf fn = false := by
            cases hb : lowerEndsWithPdf fn
            · rfl
            · exact absurd hb hext
          simp [convert_pdf, hne, hf]
  rw [hnil]
  simp

/-! ### Witnesses -/

/-- Witness for the multi-page claim on a concrete two-page upload. -/
theorem multi_page_returns_deflate_zip_witness :
    ∃ entries : List (String × Bytes),
      (convert_pdf rastTwoPages encOk ⟨some ⟨"scan.PDF", [9]⟩⟩).1 =
        Response.sendFile (FileData.zip entries Compression.deflated)
          "application/zip" "converted_pages.zip" ∧
      (convert_pdf rastTwoPages encOk ⟨some ⟨"scan.PDF", [9]⟩⟩).1.status = 200 ∧
      entries.length = ([3, 4] : List Nat).length ∧
      (∀ i (h : i < entries.length), (entries.get ⟨i, h⟩).1 = entryName i) ∧
      (∀ i (hi : i < ([3, 4] : List Nat).length) (he : i < entries.length),
        encOk (([3, 4] : List Nat).get ⟨i, hi⟩) 85 = Except.ok (entries.get ⟨i, he⟩).2) :=
  multi_page_returns_deflate_zip rastTwoPages encOk "scan.PDF" [9] [3, 4] [[3, 85], [4, 85]]
    (by decide) rfl (by decide) rfl

/-- Witness for the single-page claim on a concrete one-page upload. -/
theorem single_page_returns_jpeg_witness :
    convert_pdf rastOnePage encOk ⟨some ⟨"a.pdf", [1]⟩⟩ =
      (Response.sendFile (FileData.raw [3, 85]) "image/jpeg" "converted_page_1.jpg",
       [Event.readFile [1], Event.rasterize [1] 150, Event.encode 3 85]) ∧
    (convert_pdf rastOnePage encOk ⟨some ⟨"a.pdf", [1]⟩⟩).1.status = 200 :=
  single_page_returns_jpeg rastOnePage encOk "a.pdf" [1] 3 [3, 85] (by decide) rfl rfl

/-- Witness for the extension check: a `.txt` upload is rejected; an
upper-case `.PDF` upload passes and reaches the rasterizer. -/
theorem extension_check_rejects_non_pdf_witness :
    convert_pdf rastTwoPages encOk ⟨some ⟨"doc.txt", [1]⟩⟩ =
      (Response.text "Invalid file type. Please upload a PDF." 400, ([] : List (Event Nat))) ∧
    ((convert_pdf rastTwoPages encOk ⟨some ⟨"doc.PDF", [1]⟩⟩).1.status ≠ 400 ∧
      Event.rasterize [1] 150 ∈ (convert_pdf rastTwoPages encOk ⟨some ⟨"doc.PDF", [1]⟩⟩).2) :=
  ⟨(extension_check_rejects_non_pdf rastTwoPages encOk "doc.txt" [1] (by decide)).1 (by decide),
   (extension_check_rejects_non_pdf rastTwoPages encOk "doc.PDF" [1] (by decide)).2 (by decide)⟩

/-- Witness for the zero-page claim on a rasterizer reporting no pages. -/
theorem zero_pages_returns_500_witness :
    convert_pdf rastZeroPages encOk ⟨some ⟨"z.pdf", [2]⟩⟩ =
      (Response.text "Could not convert PDF to images. Ensure PDF is valid." 500,
       [Event.readFile [2], Event.rasterize [2] 150]) :=
  zero_pages_returns_500 rastZeroPages encOk "z.pdf" [2] (by decide) rfl

/-- Witness for the exception claim on a raising rasterizer. -/
theorem exception_returns_logged_500_witness :
    (convert_pdf rastRaises encOk ⟨some ⟨"e.pdf", [2]⟩⟩).1 =
      Response.text ("An error occurred during conversion: " ++ "poppler not installed") 500 ∧
    (convert_pdf rastRaises encOk ⟨some ⟨"e.pdf", [2]⟩⟩).1.status = 500 ∧
    Event.log ("Error during PDF conversion: " ++ "poppler not installed") ∈
      (convert_pdf rastRaises encOk ⟨some ⟨"e.pdf", [2]⟩⟩).2 :=
  exception_returns_logged_500 rastRaises encOk "e.pdf" [2] "poppler not installed"
    (by decide) rfl

/-- Witness for the fixed-parameter claim on a concrete valid upload. -/
theorem conversion_parameters_fixed_witness :
    (∀ b d, Event.rasterize b d ∈ (convert_pdf rastTwoPages encOk ⟨some ⟨"m.pdf", [5]⟩⟩).2 →
      b = [5] ∧ d = 150) ∧
    Event.rasterize [5] 150 ∈ (convert_pdf rastTwoPages encOk ⟨some ⟨"m.pdf", [5]⟩⟩).2 ∧
    (∀ img q, Event.encode img q ∈ (convert_pdf rastTwoPages encOk ⟨some ⟨"m.pdf", [5]⟩⟩).2 →
      q = 85) :=
  conversion_parameters_fixed rastTwoPages encOk "m.pdf" [5] (by decide)

/-- Witness for validation precedence at the three concrete defects. -/
theorem validation_precedence_witness :
    convert_pdf rastTwoPages encOk ⟨none⟩ =
      (Response.text "No PDF file part in the request" 400, ([] : List (Event Nat))) ∧
    (lowerEndsWithPdf "" = false ∧
      convert_pdf rastTwoPages encOk ⟨some ⟨"", [1]⟩⟩ =
        (Response.text "No selected file" 400, ([] : List (Event Nat)))) ∧
    convert_pdf rastTwoPages encOk ⟨some ⟨"doc.txt", [1]⟩⟩ =
      (Response.text "Invalid file type. Please upload a PDF." 400, ([] : List (Event Nat))) :=
  ⟨(validation_precedence rastTwoPages encOk).1 ⟨none⟩ rfl,
   (validation_precedence rastTwoPages encOk).2.1 "" [1] rfl,
   (validation_precedence rastTwoPages encOk).2.2 "doc.txt" [1] (by decide) (by decide)⟩

/-- Witness for the frame claim on a concrete rejected upload. -/
theorem validation_failure_no_effects_witness :
    (convert_pdf rastTwoPages encOk ⟨some ⟨"bad.txt", [1]⟩⟩).2 = [] ∧
    (∀ b d, Event.rasterize b d ∉ (convert_pdf rastTwoPages encOk ⟨some ⟨"bad.txt", [1]⟩⟩).2) ∧
    (∀ b, Event.readFile b ∉ (convert_pdf rastTwoPages encOk ⟨some ⟨"bad.txt", [1]⟩⟩).2) ∧
    (∀ img q, Event.encode img q ∉ (convert_pdf rastTwoPages encOk ⟨some ⟨"bad.txt", [1]⟩⟩).2) :=
  validation_failure_no_effects rastTwoPages encOk ⟨some ⟨"bad.txt", [1]⟩⟩ (by decide)

end FileConverter
